import Mathlib

/-!
Shallow embedding of `src/karthik.py` (spam detection system with OS
operations), together with theorems settling the specification claims.

Conventions of the embedding:
* Python strings are Lean `String`s; character-level work happens on
  `String.data : List Char`.
* Python's `str.lower` / `str.isupper` / `str.split()` are modelled at the
  ASCII level (`Char.toLower` is the ASCII case map, casedness is
  ASCII letters), which coincides with Python on the ASCII texts the
  program manipulates.
* File-system effects are modelled by explicit state passing: a directory
  set for `setup_environment`, a list of files with modification times for
  `cleanup_old_files`, a map from paths to JSON documents for
  `save_result`, and the log file's contents as a string for
  `log_operation`.  The wall clock (`datetime.now`) is an explicit
  parameter.
-/

namespace Karthik

/-- The fixed indicator list `SPAM_INDICATORS` from the source. -/
def SPAM_INDICATORS : List String :=
  ["urgent", "winner", "prize", "reward", "claim", "selected",
   "valued customer", "call now", "limited time", "congratulations",
   "account compromised", "security alert"]

/-- ASCII lowercasing of a character list, modelling Python `str.lower` on
the ASCII texts handled by the program. -/
def toLowerL (s : List Char) : List Char := s.map Char.toLower

/-- Test `startsWithL pat s` holds when `pat` is an initial segment of `s`. -/
def startsWithL : List Char → List Char → Bool
  | [], _ => true
  | _ :: _, [] => false
  | a :: pa, b :: pb => a == b && startsWithL pa pb

/-- Test `containsSub pat s` models Python's substring test `pat in s`. -/
def containsSub (pat : List Char) : List Char → Bool
  | [] => startsWithL pat []
  | c :: rest => startsWithL pat (c :: rest) || containsSub pat rest

/-- The check `indicator.lower() in text.lower()` from `calculate_spam_score`. -/
def indicatorMatches (ind : String) (text : String) : Bool :=
  containsSub (toLowerL ind.data) (toLowerL text.data)

/-- ASCII whitespace recognised by Python's `str.split()`. -/
def pyIsSpace (c : Char) : Bool :=
  c == ' ' || c == '\t' || c == '\n' || c == '\r' || c.toNat == 11 || c.toNat == 12

/-- Accumulator-based whitespace splitter (`acc` holds the current token
reversed). -/
def splitWsAux : List Char → List Char → List (List Char)
  | [], acc => if acc.isEmpty then [] else [acc.reverse]
  | c :: rest, acc =>
    if pyIsSpace c then
      if acc.isEmpty then splitWsAux rest []
      else acc.reverse :: splitWsAux rest []
    else splitWsAux rest (c :: acc)

/-- Python `text.split()`: maximal runs of non-whitespace characters. -/
def splitWs (s : List Char) : List (List Char) := splitWsAux s []

/-- ASCII upper-case letter test (`A`–`Z`). -/
def isUpperCh (c : Char) : Bool := 65 ≤ c.toNat && c.toNat ≤ 90

/-- ASCII lower-case letter test (`a`–`z`). -/
def isLowerCh (c : Char) : Bool := 97 ≤ c.toNat && c.toNat ≤ 122

/-- A cased character in the ASCII model: an upper- or lower-case letter. -/
def isCasedChar (c : Char) : Bool := isUpperCh c || isLowerCh c

/-- Python `word.isupper()`: at least one cased character, and every cased
character upper-case. -/
def pyIsUpper (w : List Char) : Bool :=
  w.any isCasedChar && w.all (fun c => !isCasedChar c || isUpperCh c)

/-- The list-comprehension filter from `calculate_spam_score`:
`len(word) > 2 and word.isupper()`. -/
def capsTokenPred (w : List Char) : Bool :=
  decide (w.length > 2) && pyIsUpper w

/-- The list `caps_words` from `calculate_spam_score`: whitespace tokens of length
greater than 2 that are fully upper-case. -/
def caps_words (text : String) : List (List Char) :=
  (splitWs text.data).filter capsTokenPred

/-- The `DetectionResult` dataclass. -/
structure DetectionResult where
  classification : String
  score : Nat
deriving DecidableEq, Repr

/-- The `SpamDetector` class: its only state is the threshold set in
`__init__`. -/
structure SpamDetector where
  spam_threshold : Int
deriving DecidableEq, Repr

/-- The detector built with the default constructor argument
`spam_threshold: int = 2`. -/
def defaultDetector : SpamDetector := ⟨2⟩

/-- Method `SpamDetector.calculate_spam_score`: one point per matching indicator,
one point for more than two `!` characters, one point for more than two
all-caps words, accumulated in the source's order. -/
def SpamDetector.calculate_spam_score (_self : SpamDetector) (text : String) : Nat :=
  let score := SPAM_INDICATORS.countP (fun ind => indicatorMatches ind text)
  let score := if text.data.count '!' > 2 then score + 1 else score
  let score := if (caps_words text).length > 2 then score + 1 else score
  score

/-- Method `SpamDetector.classify`: label `"SPAM"` when the score reaches the
threshold, else `"NOT SPAM"`. -/
def SpamDetector.classify (self : SpamDetector) (text : String) : DetectionResult :=
  let score := self.calculate_spam_score text
  let classification := if (score : Int) ≥ self.spam_threshold then "SPAM" else "NOT SPAM"
  ⟨classification, score⟩

/-- The spam example message from the spec and the source's test driver. -/
def exampleSpamText : String :=
  "WINNER!! As a valued network customer you have been selected to receive a £900 prize reward!"

/-- The harmless example message from the spec and the source's driver. -/
def exampleHamText : String := "Hey, are we still on for lunch today?"

example : defaultDetector.calculate_spam_score exampleSpamText = 5 := by decide
example : defaultDetector.calculate_spam_score exampleHamText = 0 := by decide
example : (defaultDetector.classify exampleSpamText).classification = "SPAM" := by decide
example : indicatorMatches "valued customer" exampleSpamText = false := by decide
example : capsTokenPred "WINNER!!".data = true := by decide

/-! ### Spec-side decomposition of the score -/

/-- The indicators of the fixed set that match a given text. -/
def matchedIndicators (text : String) : List String :=
  SPAM_INDICATORS.filter (fun ind => indicatorMatches ind text)

/-- The punctuation heuristic's contribution: 1 when `!` occurs more than
twice in the raw text. -/
def punct_bonus (text : String) : Nat :=
  if text.data.count '!' > 2 then 1 else 0

/-- The shouting heuristic's contribution: 1 when more than two all-caps
words are present. -/
def caps_bonus (text : String) : Nat :=
  if (caps_words text).length > 2 then 1 else 0

/-! ### `SystemManager.cleanup_old_files` -/

/-- A file of the directory tree visited by `os.walk`, reduced to what
`cleanup_old_files` inspects: its path and its last-modified time
(`os.path.getmtime`, in seconds). -/
structure FileEntry where
  path : String
  mtime : Int
deriving DecidableEq, Repr

/-- Method `SystemManager.cleanup_old_files`: walk the files under the directory
(`files` lists them all, as produced by `os.walk`) and delete every file
with `current_time - mtime > days * 86400`; the survivors are returned. -/
def cleanup_old_files (current_time : Int) (days : Int) : List FileEntry → List FileEntry
  | [] => []
  | f :: rest =>
    if current_time - f.mtime > days * 86400 then cleanup_old_files current_time days rest
    else f :: cleanup_old_files current_time days rest

/-! ### `SystemManager.setup_environment` -/

/-- The `required_dirs` list from `setup_environment`. -/
def required_dirs : List String := ["data", "data/input", "data/output", "data/logs"]

/-- Append a directory to the state if absent (a directory cannot exist
twice on a file system). -/
def addDir (dirs : List String) (q : String) : List String :=
  if q ∈ dirs then dirs else dirs ++ [q]

/-- Split a character list on `/`, keeping empty segments. -/
def splitOnSlashAux : List Char → List Char → List (List Char)
  | [], acc => [acc.reverse]
  | c :: rest, acc =>
    if c == '/' then acc.reverse :: splitOnSlashAux rest []
    else splitOnSlashAux rest (c :: acc)

/-- Rejoin path components with `/`. -/
def joinSlash : List (List Char) → List Char
  | [] => []
  | [w] => w
  | w :: ws => w ++ '/' :: joinSlash ws

/-- Every ancestor of a `/`-separated path, innermost last; these are the
directories `os.makedirs` creates. -/
def pathAncestors (p : String) : List String :=
  let parts := splitOnSlashAux p.data []
  (List.range parts.length).map (fun i => String.mk (joinSlash (parts.take (i + 1))))

/-- Model of `os.makedirs(p, exist_ok=True)`: create the path and its ancestors,
never failing when they already exist. -/
def makedirs_exist_ok (dirs : List String) (p : String) : List String :=
  (pathAncestors p).foldl addDir dirs

/-- Method `SystemManager.setup_environment`: `makedirs` over `required_dirs`. -/
def setup_environment (dirs : List String) : List String :=
  required_dirs.foldl makedirs_exist_ok dirs

example : pathAncestors "data/input" = ["data", "data/input"] := by decide
example : setup_environment [] = ["data", "data/input", "data/output", "data/logs"] := by decide

/-! ### `FileProcessor` -/

/-- Minimal JSON documents: what `json.dump` receives from `save_result`. -/
inductive Json where
  | jstr : String → Json
  | jnum : Int → Json
  | jobj : List (String × Json) → Json

/-- The keys of a JSON object. -/
def Json.objKeys : Json → Option (List String)
  | .jobj fields => some (fields.map Prod.fst)
  | _ => none

/-- Field lookup in a JSON object. -/
def Json.lookupField : Json → String → Option Json
  | .jobj fields, key => (fields.find? (fun f => f.1 == key)).map Prod.snd
  | _, _ => none

/-- The `FileProcessor` class: `__init__` derives the three sub-directories
from `base_dir` with `os.path.join`. -/
structure FileProcessor where
  base_dir : String
  input_dir : String
  output_dir : String
  logs_dir : String

/-- Constructor `FileProcessor.__init__`. -/
def FileProcessor.init (base_dir : String) : FileProcessor :=
  ⟨base_dir, base_dir ++ "/input", base_dir ++ "/output", base_dir ++ "/logs"⟩

/-- The processor built with the default constructor argument
`base_dir: str = "data"`. -/
def defaultProcessor : FileProcessor := FileProcessor.init "data"

/-- The `data` dictionary serialized by `save_result`. -/
def result_record (timestamp message : String) (result : DetectionResult) : Json :=
  .jobj [("timestamp", .jstr timestamp),
         ("message", .jstr message),
         ("classification", .jstr result.classification),
         ("score", .jnum (result.score : Int))]

/-- Method `FileProcessor.save_result`: write the four-field record as JSON to
`output_dir/result_<timestamp>.json` and return the path.  The JSON store
maps file paths to the documents they hold (Python's `json.dump`/`json.load`
codec is modelled as this faithful store). -/
def FileProcessor.save_result (fp : FileProcessor) (timestamp message : String)
    (result : DetectionResult) (store : List (String × Json)) :
    List (String × Json) × String :=
  let filename := "result_" ++ timestamp ++ ".json"
  let filepath := fp.output_dir ++ "/" ++ filename
  ((filepath, result_record timestamp message result) :: store, filepath)

/-- Read a JSON file back from the store and parse it. -/
def readJson (store : List (String × Json)) (path : String) : Option Json :=
  (store.find? (fun e => e.1 == path)).map Prod.snd

/-- The entry text `log_operation` builds: bracketed timestamp line,
`Details:` line, 50-dash separator. -/
def log_entry (timestamp operation details : String) : String :=
  "[" ++ timestamp ++ "] " ++ operation ++ "\n" ++
  "Details: " ++ details ++ "\n" ++
  String.mk (List.replicate 50 '-') ++ "\n"

/-- Method `FileProcessor.log_operation`: open the log in append mode and write
one entry; the log file's contents are passed and returned explicitly. -/
def FileProcessor.log_operation (_fp : FileProcessor) (timestamp operation details : String)
    (log : String) : String :=
  log ++ log_entry timestamp operation details

/-! ### Helper lemmas -/

theorem startsWithL_iff (pat : List Char) : ∀ s : List Char,
    startsWithL pat s = true ↔ List.IsPrefix pat s := by
  induction pat with
  | nil =>
    intro s
    simp [startsWithL, List.IsPrefix]
  | cons a pa ih =>
    intro s
    cases s with
    | nil => simp [startsWithL, List.IsPrefix]
    | cons b pb =>
      simp [startsWithL, List.IsPrefix, ih pb, List.cons.injEq]

theorem sub_cons_iff (pat : List Char) (c : Char) (rest : List Char) :
    List.IsInfix pat (c :: rest) ↔ List.IsPrefix pat (c :: rest) ∨ List.IsInfix pat rest := by
  constructor
  · rintro ⟨ys, zs, h⟩
    cases ys with
    | nil => exact Or.inl ⟨zs, by simpa using h⟩
    | cons y ys =>
      refine Or.inr ⟨ys, zs, ?_⟩
      simpa using congrArg List.tail h
  · rintro (⟨t, h⟩ | ⟨ys, zs, h⟩)
    · exact ⟨[], t, by simpa using h⟩
    · exact ⟨c :: ys, zs, by simp [← h]⟩

theorem containsSub_iff (pat : List Char) : ∀ s : List Char,
    containsSub pat s = true ↔ List.IsInfix pat s := by
  intro s
  induction s with
  | nil =>
    simp only [containsSub, startsWithL_iff]
    constructor
    · exact fun ⟨t, h⟩ => ⟨[], t, by simpa using h⟩
    · rintro ⟨ys, zs, h⟩
      rcases List.append_eq_nil.mp h with ⟨hy, hpz⟩
      rcases List.append_eq_nil.mp hy with ⟨hp, hz⟩
      exact ⟨[], by simp [hz]⟩
  | cons c rest ih =>
    simp [containsSub, startsWithL_iff, ih, sub_cons_iff]

/-- The spec's reading of the indicator condition: the indicator occurs as a
substring of the lowercased text. -/
def matchedIndicatorsSpec (text : String) : List String :=
  SPAM_INDICATORS.filter
    (fun ind => decide (List.IsInfix (toLowerL ind.data) (toLowerL text.data)))

theorem matchedIndicators_eq_spec (text : String) :
    matchedIndicators text = matchedIndicatorsSpec text := by
  unfold matchedIndicators matchedIndicatorsSpec
  apply List.filter_congr
  intro ind _
  rw [Bool.eq_iff_iff]
  simp [indicatorMatches, containsSub_iff]

/-- The score is the three-way sum the spec describes. -/
theorem score_decomposition (d : SpamDetector) (text : String) :
    d.calculate_spam_score text
      = (matchedIndicators text).length + punct_bonus text + caps_bonus text := by
  unfold SpamDetector.calculate_spam_score matchedIndicators punct_bonus caps_bonus
  rw [List.countP_eq_length_filter]
  by_cases h1 : text.data.count '!' > 2 <;>
    by_cases h2 : (caps_words text).length > 2 <;>
      simp [h1, h2]

theorem classify_classification (d : SpamDetector) (text : String) :
    (d.classify text).classification
      = if ((d.calculate_spam_score text : Int)) ≥ d.spam_threshold
        then "SPAM" else "NOT SPAM" := rfl

theorem classify_score (d : SpamDetector) (text : String) :
    (d.classify text).score = d.calculate_spam_score text := rfl

/-! ### Claims -/

/-- C1: classify returns SPAM exactly when the score reaches the threshold
and NOT SPAM otherwise; a score equal to the threshold yields SPAM, a score
equal to threshold − 1 yields NOT SPAM, and the default threshold is 2. -/
theorem C1_threshold_rule (text : String) (threshold : Int) :
    (((SpamDetector.mk threshold).classify text).classification = "SPAM"
        ↔ ((((SpamDetector.mk threshold).classify text).score : Int) ≥ threshold))
    ∧ (((SpamDetector.mk threshold).classify text).classification = "NOT SPAM"
        ↔ ¬ ((((SpamDetector.mk threshold).classify text).score : Int) ≥ threshold))
    ∧ (((((SpamDetector.mk threshold).classify text).score : Int) = threshold)
        → ((SpamDetector.mk threshold).classify text).classification = "SPAM")
    ∧ (((((SpamDetector.mk threshold).classify text).score : Int) = threshold - 1)
        → ((SpamDetector.mk threshold).classify text).classification = "NOT SPAM")
    ∧ defaultDetector.spam_threshold = 2 := by
  have hne : ("SPAM" : String) ≠ "NOT SPAM" := by decide
  rw [classify_classification, classify_score]
  by_cases h : ((SpamDetector.mk threshold).calculate_spam_score text : Int) ≥ threshold
  · refine ⟨by simp [h], by simp [h, hne], fun _ => by simp [h], fun habs => ?_, rfl⟩
    omega
  · refine ⟨by simp [h, hne.symm], by simp [h], fun habs => ?_, fun _ => by simp [h], rfl⟩
    omega

/-- Closed instance of C1 at a concrete text and threshold. -/
theorem C1_threshold_rule_witness :
    ((SpamDetector.mk 2).classify "urgent winner").classification = "SPAM" :=
  (C1_threshold_rule "urgent winner" 2).1.mpr (by decide)

/-- C2: the score is exactly the number of matching indicators (each
counted once, via substring containment in the lowercased text) plus the
punctuation flag plus the caps flag, and is bounded by the indicator count
plus 2. -/
theorem C2_score_formula (d : SpamDetector) (text : String) :
    d.calculate_spam_score text
      = (matchedIndicatorsSpec text).length + punct_bonus text + caps_bonus text
    ∧ d.calculate_spam_score text ≤ SPAM_INDICATORS.length + 2 := by
  have hspec := (matchedIndicators_eq_spec text) ▸ score_decomposition d text
  refine ⟨hspec, ?_⟩
  rw [score_decomposition]
  have h1 : (matchedIndicators text).length ≤ SPAM_INDICATORS.length :=
    List.length_filter_le _ _
  have h2 : punct_bonus text ≤ 1 := by unfold punct_bonus; split <;> simp
  have h3 : caps_bonus text ≤ 1 := by unfold caps_bonus; split <;> simp
  omega

/-- C3 counterexample: the example text does not match all five indicators
named by the claim — "valued customer" is not a substring, because the text
reads "valued network customer". -/
theorem C3_example_counterexample :
    ¬ (indicatorMatches "winner" exampleSpamText = true
       ∧ indicatorMatches "valued customer" exampleSpamText = true
       ∧ indicatorMatches "selected" exampleSpamText = true
       ∧ indicatorMatches "prize" exampleSpamText = true
       ∧ indicatorMatches "reward" exampleSpamText = true) := by
  decide

/-- C3 amended: on the example text the indicators "winner", "selected",
"prize" and "reward" match, "valued customer" does not, the punctuation
bonus applies, the score is exactly 5 (hence at least 5), and the
classification at threshold 2 is SPAM. -/
theorem C3_example_amended :
    indicatorMatches "winner" exampleSpamText = true
    ∧ indicatorMatches "selected" exampleSpamText = true
    ∧ indicatorMatches "prize" exampleSpamText = true
    ∧ indicatorMatches "reward" exampleSpamText = true
    ∧ indicatorMatches "valued customer" exampleSpamText = false
    ∧ punct_bonus exampleSpamText = 1
    ∧ (SpamDetector.mk 2).calculate_spam_score exampleSpamText = 5
    ∧ 5 ≤ (SpamDetector.mk 2).calculate_spam_score exampleSpamText
    ∧ ((SpamDetector.mk 2).classify exampleSpamText).classification = "SPAM" := by
  decide

/-- C4: if every indicator matching the first text still matches the second
and neither the punctuation flag nor the caps flag decreases, the score does
not decrease. -/
theorem C4_monotonicity (d : SpamDetector) (t1 t2 : String)
    (hind : ∀ ind ∈ SPAM_INDICATORS,
      indicatorMatches ind t1 = true → indicatorMatches ind t2 = true)
    (hpunct : punct_bonus t1 ≤ punct_bonus t2)
    (hcaps : caps_bonus t1 ≤ caps_bonus t2) :
    d.calculate_spam_score t1 ≤ d.calculate_spam_score t2 := by
  rw [score_decomposition, score_decomposition]
  have hlen : (matchedIndicators t1).length ≤ (matchedIndicators t2).length := by
    unfold matchedIndicators
    rw [← List.countP_eq_length_filter, ← List.countP_eq_length_filter]
    exact List.countP_mono_left hind
  omega

/-- Closed instance of C4: adding the indicator "urgent" and extra `!`
characters does not decrease the score. -/
theorem C4_monotonicity_witness :
    defaultDetector.calculate_spam_score "hello"
      ≤ defaultDetector.calculate_spam_score "urgent hello!!!" :=
  C4_monotonicity defaultDetector "hello" "urgent hello!!!" (by decide) (by decide) (by decide)

/-- C5: with no matching indicator, at most two `!` and at most two
all-caps words, the score is 0 and the default-threshold classification is
NOT SPAM; in particular this holds for the empty string. -/
theorem C5_no_triggers (text : String)
    (hind : ∀ ind ∈ SPAM_INDICATORS, indicatorMatches ind text = false)
    (hpunct : text.data.count '!' ≤ 2)
    (hcaps : (caps_words text).length ≤ 2) :
    defaultDetector.calculate_spam_score text = 0
    ∧ (defaultDetector.classify text).classification = "NOT SPAM"
    ∧ defaultDetector.calculate_spam_score "" = 0
    ∧ (defaultDetector.classify "").classification = "NOT SPAM" := by
  have hscore : defaultDetector.calculate_spam_score text = 0 := by
    rw [score_decomposition]
    have h1 : (matchedIndicators text).length = 0 := by
      unfold matchedIndicators
      rw [List.length_eq_zero, List.filter_eq_nil_iff]
      intro a ha
      simp [hind a ha]
    have h2 : punct_bonus text = 0 := by
      unfold punct_bonus
      rw [if_neg (by omega)]
    have h3 : caps_bonus text = 0 := by
      unfold caps_bonus
      rw [if_neg (by omega)]
    omega
  refine ⟨hscore, ?_, by decide, by decide⟩
  rw [classify_classification, hscore]
  decide

/-- Closed instance of C5 at the spec's harmless example message. -/
theorem C5_no_triggers_witness :
    defaultDetector.calculate_spam_score exampleHamText = 0
    ∧ (defaultDetector.classify exampleHamText).classification = "NOT SPAM"
    ∧ defaultDetector.calculate_spam_score "" = 0
    ∧ (defaultDetector.classify "").classification = "NOT SPAM" :=
  C5_no_triggers exampleHamText (by decide) (by decide) (by decide)

/-- C6: the sweep retains exactly the files not older than the cutoff: a
file is deleted precisely when `current_time - mtime > days * 86400`; with
`days = 7` a file 8 days old is deleted and a file 6 days old is kept. -/
theorem C6_cleanup_old_files (current_time days : Int) (files : List FileEntry) :
    cleanup_old_files current_time days files
      = files.filter (fun f => !decide (current_time - f.mtime > days * 86400))
    ∧ (∀ f : FileEntry, f ∈ cleanup_old_files current_time days files
        ↔ (f ∈ files ∧ current_time - f.mtime ≤ days * 86400))
    ∧ cleanup_old_files current_time 7
        [⟨"old.txt", current_time - 8 * 86400⟩, ⟨"young.txt", current_time - 6 * 86400⟩]
      = [⟨"young.txt", current_time - 6 * 86400⟩] := by
  have hfilter : ∀ l : List FileEntry, cleanup_old_files current_time days l
      = l.filter (fun f => !decide (current_time - f.mtime > days * 86400)) := by
    intro l
    induction l with
    | nil => rfl
    | cons f rest ih =>
      simp only [cleanup_old_files, List.filter_cons]
      by_cases h : current_time - f.mtime > days * 86400
      · simp [h, ih]
      · simp [h, ih]
  refine ⟨hfilter files, fun f => ?_, ?_⟩
  · rw [hfilter files, List.mem_filter]
    simp only [Bool.not_eq_eq_eq_not, Bool.not_true, decide_eq_false_iff_not, not_lt]
  · have h1 : current_time - (current_time - 8 * 86400) > 7 * 86400 := by omega
    have h2 : ¬ (current_time - (current_time - 6 * 86400) > 7 * 86400) := by omega
    simp [cleanup_old_files, h1, h2]

/-- C7: the file written by `save_result` holds a JSON object with exactly
the four record fields, and reading the returned path back and parsing it
reproduces the message, classification and score that were passed in. -/
theorem C7_save_round_trip (fp : FileProcessor) (ts message : String)
    (result : DetectionResult) (store : List (String × Json)) :
    readJson (fp.save_result ts message result store).1
        (fp.save_result ts message result store).2
      = some (result_record ts message result)
    ∧ Json.objKeys (result_record ts message result)
      = some ["timestamp", "message", "classification", "score"]
    ∧ Json.lookupField (result_record ts message result) "message"
      = some (.jstr message)
    ∧ Json.lookupField (result_record ts message result) "classification"
      = some (.jstr result.classification)
    ∧ Json.lookupField (result_record ts message result) "score"
      = some (.jnum (result.score : Int))
    ∧ Json.lookupField (result_record ts message result) "timestamp"
      = some (.jstr ts) := by
  refine ⟨?_, rfl, ?_, ?_, ?_, ?_⟩
  · simp [FileProcessor.save_result, readJson, List.find?]
  all_goals
    simp [Json.lookupField, result_record, List.find?, beq_iff_eq]

/-! ### Directory-set lemmas for `setup_environment` -/

theorem addDir_of_mem {dirs : List String} {q : String} (h : q ∈ dirs) :
    addDir dirs q = dirs := by
  unfold addDir
  rw [if_pos h]

theorem mem_foldl_addDir (l : List String) : ∀ (dirs : List String) (x : String),
    x ∈ l.foldl addDir dirs ↔ x ∈ dirs ∨ x ∈ l := by
  induction l with
  | nil => simp
  | cons q rest ih =>
    intro dirs x
    rw [List.foldl_cons, ih]
    unfold addDir
    by_cases hq : q ∈ dirs
    · rw [if_pos hq]
      simp only [List.mem_cons]
      constructor
      · rintro (h | h)
        · exact Or.inl h
        · exact Or.inr (Or.inr h)
      · rintro (h | h | h)
        · exact Or.inl h
        · exact Or.inl (h ▸ hq)
        · exact Or.inr h
    · rw [if_neg hq]
      simp only [List.mem_append, List.mem_cons, List.mem_singleton]
      tauto

theorem foldl_addDir_of_subset (l : List String) : ∀ dirs : List String,
    (∀ q ∈ l, q ∈ dirs) → l.foldl addDir dirs = dirs := by
  induction l with
  | nil => intro dirs _; rfl
  | cons q rest ih =>
    intro dirs h
    rw [List.foldl_cons, addDir_of_mem (h q (by simp))]
    exact ih dirs (fun x hx => h x (by simp [hx]))

theorem addDir_nodup {dirs : List String} {q : String} (h : dirs.Nodup) :
    (addDir dirs q).Nodup := by
  unfold addDir
  split
  · exact h
  · rename_i hq
    simp [List.nodup_append, h, hq]

theorem foldl_addDir_nodup (l : List String) : ∀ dirs : List String,
    dirs.Nodup → (l.foldl addDir dirs).Nodup := by
  induction l with
  | nil => intro dirs h; exact h
  | cons q rest ih =>
    intro dirs h
    rw [List.foldl_cons]
    exact ih _ (addDir_nodup h)

/-- The directories `setup_environment` creates, in creation order
(`makedirs` creates each required path's ancestors first). -/
def created_dirs : List String :=
  ["data", "data", "data/input", "data", "data/output", "data", "data/logs"]

theorem setup_environment_eq (dirs : List String) :
    setup_environment dirs = created_dirs.foldl addDir dirs := by
  have h1 : pathAncestors "data" = ["data"] := by decide
  have h2 : pathAncestors "data/input" = ["data", "data/input"] := by decide
  have h3 : pathAncestors "data/output" = ["data", "data/output"] := by decide
  have h4 : pathAncestors "data/logs" = ["data", "data/logs"] := by decide
  simp [setup_environment, required_dirs, makedirs_exist_ok, created_dirs,
    h1, h2, h3, h4, List.foldl_cons, List.foldl_nil]

/-- C8: `setup_environment` establishes the four required directories,
running it again (in particular from any state where they already exist)
changes nothing — and it never errors, being modelled by a total function —
and it introduces no duplicate directory entries. -/
theorem C8_setup_idempotent (dirs : List String) :
    (∀ d ∈ required_dirs, d ∈ setup_environment dirs)
    ∧ setup_environment (setup_environment dirs) = setup_environment dirs
    ∧ ((∀ d ∈ required_dirs, d ∈ dirs) → setup_environment dirs = dirs)
    ∧ (dirs.Nodup → (setup_environment dirs).Nodup) := by
  have hmem : ∀ x, x ∈ setup_environment dirs ↔ x ∈ dirs ∨ x ∈ created_dirs := by
    intro x
    rw [setup_environment_eq, mem_foldl_addDir]
  have hrc : ∀ d ∈ required_dirs, d ∈ created_dirs := by decide
  have hcr : ∀ d ∈ created_dirs, d ∈ required_dirs := by decide
  refine ⟨?_, ?_, ?_, ?_⟩
  · intro d hd
    exact (hmem d).mpr (Or.inr (hrc d hd))
  · rw [setup_environment_eq (setup_environment dirs)]
    apply foldl_addDir_of_subset
    intro q hq
    exact (hmem q).mpr (Or.inr hq)
  · intro h
    rw [setup_environment_eq]
    exact foldl_addDir_of_subset _ _ (fun q hq => h q (hcr q hq))
  · intro hnd
    rw [setup_environment_eq]
    exact foldl_addDir_nodup _ _ hnd

/-- Closed instance of C8 starting from the empty file system. -/
theorem C8_setup_idempotent_witness :
    setup_environment (setup_environment []) = setup_environment []
    ∧ (setup_environment []).Nodup :=
  ⟨(C8_setup_idempotent []).2.1, (C8_setup_idempotent []).2.2.2 (by decide)⟩

theorem string_data_append (a b : String) : (a ++ b).data = a.data ++ b.data := rfl

/-- C9: `log_operation` is pure append: the new log is exactly the old log
followed by one non-empty formatted entry, so every byte of prior content
is unchanged and in its original position. -/
theorem C9_log_append_only (fp : FileProcessor) (ts op det lg : String) :
    fp.log_operation ts op det lg = lg ++ log_entry ts op det
    ∧ (fp.log_operation ts op det lg).data.take lg.data.length = lg.data
    ∧ (fp.log_operation ts op det lg).data.length
        = lg.data.length + (log_entry ts op det).data.length
    ∧ log_entry ts op det ≠ "" := by
  have hpos : 0 < (log_entry ts op det).data.length := by
    unfold log_entry
    rw [string_data_append, List.length_append]
    have h1 : ("\n".data).length = 1 := rfl
    omega
  refine ⟨rfl, ?_, ?_, ?_⟩
  · show (lg ++ log_entry ts op det).data.take lg.data.length = lg.data
    rw [string_data_append]
    exact List.take_left _ _
  · show (lg ++ log_entry ts op det).data.length = _
    rw [string_data_append, List.length_append]
  · intro h
    rw [h] at hpos
    simp at hpos

/-! ### Character-class lemmas for the shouting heuristic -/

theorem upper_not_lower {c : Char} (h : isUpperCh c = true) : isLowerCh c = false := by
  simp only [isUpperCh, Bool.and_eq_true, decide_eq_true_eq] at h
  simp only [isLowerCh, Bool.and_eq_false_iff, decide_eq_false_iff_not]
  omega

theorem cased_not_lower {c : Char} (hc : isCasedChar c = true) (hl : isLowerCh c = false) :
    isUpperCh c = true := by
  have hc2 : isUpperCh c = true ∨ isLowerCh c = true := by
    simpa [isCasedChar] using hc
  rcases hc2 with h | h
  · exact h
  · rw [h] at hl
    cases hl

/-- C10: the caps test is Python's `isupper`: it needs at least one cased
character with no lower-case character, so an all-digit or all-punctuation
token never counts, while a token mixing upper-case letters with digits or
punctuation (such as "WINNER!!") does. -/
theorem C10_isupper_semantics :
    (∀ w : List Char, (∀ c ∈ w, isCasedChar c = false) → pyIsUpper w = false)
    ∧ pyIsUpper "12345".data = false
    ∧ capsTokenPred "12345".data = false
    ∧ capsTokenPred "WINNER!!".data = true
    ∧ (∀ w : List Char, pyIsUpper w = true
        ↔ ((∃ c ∈ w, isCasedChar c = true) ∧ ∀ c ∈ w, isLowerCh c = false)) := by
  refine ⟨?_, by decide, by decide, by decide, ?_⟩
  · intro w h
    have hany : w.any isCasedChar = false := by
      rw [List.any_eq_false]
      intro x hx
      simp [h x hx]
    simp [pyIsUpper, hany]
  · intro w
    simp only [pyIsUpper, Bool.and_eq_true, List.any_eq_true, List.all_eq_true,
      Bool.or_eq_true, Bool.not_eq_true', decide_eq_true_eq]
    constructor
    · rintro ⟨⟨c, hc, hcased⟩, hall⟩
      refine ⟨⟨c, hc, hcased⟩, fun x hx => ?_⟩
      rcases hall x hx with hnc | hup
      · simp only [isCasedChar, Bool.or_eq_false_iff] at hnc
        exact hnc.2
      · exact upper_not_lower hup
    · rintro ⟨⟨c, hc, hcased⟩, hlow⟩
      refine ⟨⟨c, hc, hcased⟩, fun x hx => ?_⟩
      by_cases hcx : isCasedChar x = true
      · exact Or.inr (cased_not_lower hcx (hlow x hx))
      · exact Or.inl (by simpa using hcx)

end Karthik
